import Mathlib

/-!
Shallow embedding of `src/lib.rs` of the `ac-match` repository: an arena of
AC-aware expression nodes and the `ac_match` pattern matcher.

Modelling conventions:
* `HashMap` (both the operand multiset `Multiset = HashMap<Id, usize>` and the
  substitution `Subst = HashMap<String, SubstValue>`) is modelled as an
  association list.  The list order stands in for the unspecified hash-map
  iteration order, making the embedding a deterministic refinement of the code.
* Rust panics (`Vec` index out of range, failed `assert!`, the explicit
  top-level-multiset `panic!` call) are modelled as `Option.none`; a normal
  return of `b : bool` with final substitution state `s` is `some (b, s)`.
-/

namespace ACMatch

/-- Rust: `pub type Id = usize`; a handle is an index into the arena. -/
abbrev Id := Nat

/-- Rust: `pub enum Op { Add, Sub, Mul, Div }`. -/
inductive Op where
  | add
  | sub
  | mul
  | div
deriving DecidableEq

/-- Rust: `pub type Multiset = HashMap<Id, usize>`, an operand multiset mapping
a handle to its multiplicity, modelled as an association list. -/
abbrev MSet := List (Id × Nat)

/-- Rust: `pub enum MathAC` — expression nodes. `op` is the strictly binary
ordered node `Op(Op, [Id; 2])`; `opAC` is the AC node `OpAC(Op, Multiset)`. -/
inductive MathAC where
  | const (n : Int)
  | var (x : String)
  | op (o : Op) (a0 a1 : Id)
  | opAC (o : Op) (m : MSet)

/-- Rust: `pub enum Pattern`. -/
inductive Pattern where
  | const (n : Int)
  | var (x : String)
  | multiset (x : String)
  | op (o : Op) (pats : List Pattern)

/-- Rust: `pub struct Arena(Vec<MathAC>)`; handles are indices in insertion
order. -/
abbrev Arena := List MathAC

/-- Rust: `Arena::insert` appends the node and returns the new handle, which
equals the prior length. -/
def Arena.insert (a : Arena) (e : MathAC) : Arena × Id :=
  (a ++ [e], a.length)

/-- Rust: `pub enum SubstValue { Atom(Id), Multiset(Multiset) }`. -/
inductive SubstValue where
  | atom (i : Id)
  | multiset (m : MSet)
deriving DecidableEq

/-- Rust: `pub type Subst = HashMap<String, SubstValue>`, modelled as an
association list. -/
abbrev Subst := List (String × SubstValue)

/-- Rust `HashMap::get` on a substitution. -/
def Subst.get (s : Subst) (x : String) : Option SubstValue :=
  (s.find? (fun p => p.1 == x)).map Prod.snd

/-- Rust `HashMap::contains_key` on a substitution. -/
def Subst.containsKey (s : Subst) (x : String) : Bool :=
  s.any (fun p => p.1 == x)

/-- Rust `HashMap::insert` on a substitution: replace the existing binding of
the key if present, otherwise append a new one. -/
def Subst.insert (s : Subst) (x : String) (v : SubstValue) : Subst :=
  if s.any (fun p => p.1 == x) then
    s.map (fun p => if p.1 == x then (x, v) else p)
  else s ++ [(x, v)]

/-- The set of names bound in a substitution. -/
def Subst.keys (s : Subst) : List String := s.map Prod.fst

/-- Rust `Multiset::keys()`: the distinct keys, in iteration order. -/
def MSet.keys (m : MSet) : List Id := m.map Prod.fst

/-- Rust `HashMap::remove(&e)` on the working multiset: deletes the key `k`
together with its whole multiplicity. -/
def MSet.removeKey (m : MSet) (k : Id) : MSet :=
  m.filter (fun p => p.1 != k)

/-- Multiplicity of key `k` in a multiset (`0` when absent). -/
def MSet.count (m : MSet) (k : Id) : Nat :=
  ((m.find? (fun p => p.1 == k)).map Prod.snd).getD 0

/-- One step of the Rust helper `fn multiset`: `*res.entry(v).or_insert(0) += 1`. -/
def MSet.add (m : MSet) (k : Id) : MSet :=
  if m.any (fun p => p.1 == k) then
    m.map (fun p => if p.1 == k then (p.1, p.2 + 1) else p)
  else m ++ [(k, 1)]

/-- Rust helper `fn multiset(vs: Vec<Id>) -> Multiset`: build a multiset from a
list of occurrences. -/
def multiset (vs : List Id) : MSet := vs.foldl MSet.add []

mutual
/-- Rust `pub fn ac_match(expr, pattern, arena, subst) -> bool`.  The scrutinee
`&arena[expr]` is evaluated first (panicking on an out-of-range handle); the
match arms follow the source order, with failed guards falling through to the
catch-all `false` arm.  Panics are `none`; otherwise the result is the returned
boolean paired with the final state of the caller-visible substitution. -/
def ac_match (arena : Arena) (expr : Id) (pat : Pattern) (subst : Subst) :
    Option (Bool × Subst) :=
  match arena[expr]? with
  | none => none
  | some node =>
    match pat, node with
    | .const a, .const b => some (a == b, subst)
    | .var x, _ =>
      match Subst.get subst x with
      | some bound => some (bound == .atom expr, subst)
      | none => some (true, Subst.insert subst x (.atom expr))
    | .op pop pats, .op eop a0 a1 =>
      if pop == eop then
        match pats with
        | [p0, p1] =>
          match ac_match arena a0 p0 subst with
          | none => none
          | some (b0, s0) =>
            if b0 then ac_match arena a1 p1 s0 else some (false, s0)
        | _ => none
      else some (false, subst)
    | .op pop pats, .opAC eop m =>
      if pop == eop then acLoop arena pats m subst
      else some (false, subst)
    | .multiset _, _ => none
    | _, _ => some (false, subst)
termination_by (sizeOf pat, 0)

/-- Loop of the AC branch over the sub-pattern list (Rust `for pat in pats`),
threading the working multiset `remaining` and the committed substitution. -/
def acLoop (arena : Arena) (pats : List Pattern) (remaining : MSet)
    (subst : Subst) : Option (Bool × Subst) :=
  match pats with
  | [] => some (true, subst)
  | pat :: rest =>
    match pat with
    | .multiset xs =>
      if Subst.containsKey subst xs then none
      else some (true, Subst.insert subst xs (.multiset remaining))
    | p =>
      match tryCands arena (MSet.keys remaining) p subst with
      | none => none
      | some none => some (false, subst)
      | some (some (e, s1)) => acLoop arena rest (MSet.removeKey remaining e) s1
termination_by (sizeOf pats, 0)

/-- The candidate search (Rust `for &e in remaining.keys()`): each key is tried
against the sub-pattern with a speculative copy of the substitution; the first
success is committed.  `some none` means every candidate failed; `none`
propagates a panic raised inside a trial. -/
def tryCands (arena : Arena) (cands : List Id) (pat : Pattern) (subst : Subst) :
    Option (Option (Id × Subst)) :=
  match cands with
  | [] => some none
  | e :: es =>
    match ac_match arena e pat subst with
    | none => none
    | some (true, s1) => some (some (e, s1))
    | some (false, _) => tryCands arena es pat subst
termination_by (sizeOf pat, cands.length + 1)
end

mutual
/-- Pattern-variable names occurring in a pattern: its `var` and `multiset`
binder names. -/
def patNames (p : Pattern) : List String :=
  match p with
  | .const _ => []
  | .var x => [x]
  | .multiset x => [x]
  | .op _ pats => listNames pats
termination_by sizeOf p

/-- Pattern-variable names occurring in a list of patterns. -/
def listNames (ps : List Pattern) : List String :=
  match ps with
  | [] => []
  | p :: rest => patNames p ++ listNames rest
termination_by sizeOf ps
end

/-! Concrete arenas used to instantiate the claims.  Handles are indices in
insertion order, exactly as `Arena::insert` assigns them. -/

/-- Arena with `Const(0) -> 0` and `OpAC(Add, {0: 1}) -> 1`. -/
def arenaSing : Arena := [.const 0, .opAC .add (multiset [0])]

/-- Arena with `Const(0) -> 0`, `Const(1) -> 1` and the binary node
`Op(Add, [0, 1]) -> 2`. -/
def arenaBin : Arena := [.const 0, .const 1, .op .add 0 1]

/-- Arena with `Const(0) -> 0`, `Const(5) -> 1` and `OpAC(Add, {0: 1, 1: 1}) -> 2`. -/
def arenaTwo : Arena := [.const 0, .const 5, .opAC .add (multiset [0, 1])]

/-- Arena with `Const(0) -> 0`, `Const(1) -> 1` and a duplicated operand:
`OpAC(Add, {0: 2}) -> 2`. -/
def arenaDup : Arena := [.const 0, .const 1, .opAC .add (multiset [0, 0])]

/-- Arena of the repository test `test_match`: `Var("x") -> 0`, `Var("y") -> 1`,
`Const(0) -> 2`, `Const(1) -> 3`, `OpAC(Add, {0,3,2,1}) -> 4`,
`OpAC(Mul, {0,3,2,1}) -> 5`; the multisets are built by
`multiset(vec![ex, e1, e0, ey])` as in the test. -/
def arenaT : Arena :=
  [.var "x", .var "y", .const 0, .const 1,
   .opAC .add (multiset [0, 3, 2, 1]), .opAC .mul (multiset [0, 3, 2, 1])]

/-! ### General lemmas about the embedding -/

theorem count_removeKey_self (m : MSet) (k : Id) :
    MSet.count (MSet.removeKey m k) k = 0 := by
  unfold MSet.removeKey
  induction m with
  | nil => rfl
  | cons a t ih =>
    rw [List.filter_cons]
    by_cases h : a.1 = k
    · simpa [h] using ih
    · have hb : (a.1 != k) = true := by simp [h]
      rw [hb, if_pos rfl]
      simpa [MSet.count, List.find?_cons, h] using ih

theorem mem_keys_insert {s : Subst} {x k : String} {v : SubstValue}
    (h : k ∈ Subst.keys (Subst.insert s x v)) : k ∈ Subst.keys s ∨ k = x := by
  unfold Subst.insert at h
  split at h
  · rw [Subst.keys, List.map_map] at h
    rcases List.mem_map.1 h with ⟨p, hp, hfp⟩
    by_cases hx : p.1 = x
    · right
      simp [hx] at hfp
      exact hfp.symm
    · left
      simp [hx] at hfp
      rw [Subst.keys]
      exact List.mem_map.2 ⟨p, hp, hfp⟩
  · rw [Subst.keys, List.map_append] at h
    rcases List.mem_append.1 h with h1 | h1
    · exact Or.inl h1
    · right
      simpa using h1

end ACMatch

namespace ACMatch

theorem patNames_var (x : String) : patNames (.var x) = [x] := by
  rw [patNames.eq_def]

theorem patNames_multiset (x : String) : patNames (.multiset x) = [x] := by
  rw [patNames.eq_def]

theorem patNames_op (o : Op) (pats : List Pattern) :
    patNames (.op o pats) = listNames pats := by
  rw [patNames.eq_def]

theorem listNames_nil : listNames [] = [] := by
  rw [listNames.eq_def]

theorem listNames_cons (p : Pattern) (rest : List Pattern) :
    listNames (p :: rest) = patNames p ++ listNames rest := by
  rw [listNames.eq_def]

theorem keys_mono_all (arena : Arena) :
    (∀ (expr : Id) (pat : Pattern) (subst : Subst) (b : Bool) (s1 : Subst),
        ac_match arena expr pat subst = some (b, s1) →
        ∀ k, k ∈ Subst.keys s1 → k ∈ Subst.keys subst ∨ k ∈ patNames pat) ∧
    (∀ (pats : List Pattern) (remaining : MSet) (subst : Subst) (b : Bool) (s1 : Subst),
        acLoop arena pats remaining subst = some (b, s1) →
        ∀ k, k ∈ Subst.keys s1 → k ∈ Subst.keys subst ∨ k ∈ listNames pats) ∧
    (∀ (cands : List Id) (pat : Pattern) (subst : Subst) (e : Id) (s1 : Subst),
        tryCands arena cands pat subst = some (some (e, s1)) →
        ∀ k, k ∈ Subst.keys s1 → k ∈ Subst.keys subst ∨ k ∈ patNames pat) := by
  refine ac_match.mutual_induct arena
    (fun expr pat subst => ∀ (b : Bool) (s1 : Subst),
        ac_match arena expr pat subst = some (b, s1) →
        ∀ k, k ∈ Subst.keys s1 → k ∈ Subst.keys subst ∨ k ∈ patNames pat)
    (fun pats remaining subst => ∀ (b : Bool) (s1 : Subst),
        acLoop arena pats remaining subst = some (b, s1) →
        ∀ k, k ∈ Subst.keys s1 → k ∈ Subst.keys subst ∨ k ∈ listNames pats)
    (fun cands pat subst => ∀ (e : Id) (s1 : Subst),
        tryCands arena cands pat subst = some (some (e, s1)) →
        ∀ k, k ∈ Subst.keys s1 → k ∈ Subst.keys subst ∨ k ∈ patNames pat)
    ?_ ?_ ?_ ?_ ?_ ?_ ?_ ?_ ?_ ?_ ?_ ?_ ?_ ?_ ?_ ?_ ?_ ?_ ?_ ?_ ?_ ?_ ?_
  -- 1: arena lookup fails
  · intro expr pat subst hnode b s1 hm k hk
    rw [ac_match.eq_def, hnode] at hm
    exact Option.noConfusion hm
  -- 2: const / const
  · intro expr subst a c hnode b s1 hm k hk
    rw [ac_match.eq_def, hnode] at hm
    simp only [Option.some.injEq, Prod.mk.injEq] at hm
    obtain ⟨-, rfl⟩ := hm
    exact Or.inl hk
  -- 3: var, already bound
  · intro expr subst node hnode x bound hget b s1 hm k hk
    rw [ac_match.eq_def, hnode] at hm
    simp only [hget, Option.some.injEq, Prod.mk.injEq] at hm
    obtain ⟨-, rfl⟩ := hm
    exact Or.inl hk
  -- 4: var, unbound
  · intro expr subst node hnode x hget b s1 hm k hk
    rw [ac_match.eq_def, hnode] at hm
    simp only [hget, Option.some.injEq, Prod.mk.injEq] at hm
    obtain ⟨-, rfl⟩ := hm
    rcases mem_keys_insert hk with h | h
    · exact Or.inl h
    · right
      simp only [patNames_var]
      simp [h]
  -- 5: binary, first sub-match panics
  · intro expr subst pop eop a0 a1 hguard p0 p1 hfirst hnode ih b s1 hm k hk
    rw [ac_match.eq_def, hnode] at hm
    simp only [hguard, if_true, hfirst] at hm
    exact Option.noConfusion hm
  -- 6: binary, first sub-match true
  · intro expr subst pop eop a0 a1 hguard p0 p1 s0 hnode hfirst ih0 ih1 b s1 hm k hk
    rw [ac_match.eq_def, hnode] at hm
    simp only [hguard, if_true, hfirst] at hm
    rcases ih1 b s1 hm k hk with h | h
    · rcases ih0 true s0 hfirst k h with h2 | h2
      · exact Or.inl h2
      · right
        simp only [patNames_op, listNames_cons, listNames_nil]
        exact List.mem_append.2 (Or.inl h2)
    · right
      simp only [patNames_op, listNames_cons, listNames_nil]
      exact List.mem_append.2 (Or.inr (List.mem_append.2 (Or.inl h)))
  -- 7: binary, first sub-match false
  · intro expr subst pop eop a0 a1 hguard p0 p1 b0 s0 hfirst hb0 hnode ih0 b s1 hm k hk
    rw [ac_match.eq_def, hnode] at hm
    simp only [hguard, if_true, hfirst] at hm
    rw [if_neg hb0] at hm
    simp only [Option.some.injEq, Prod.mk.injEq] at hm
    obtain ⟨-, rfl⟩ := hm
    rcases ih0 b0 s0 hfirst k hk with h | h
    · exact Or.inl h
    · right
      simp only [patNames_op, listNames_cons, listNames_nil]
      exact List.mem_append.2 (Or.inl h)
  -- 8: binary, malformed pattern list
  · intro expr subst pop pats eop a0 a1 hguard hshape hnode b s1 hm k hk
    rw [ac_match.eq_def, hnode] at hm
    rcases pats with _ | ⟨q0, _ | ⟨q1, _ | ⟨q2, qrest⟩⟩⟩
    · simp only [hguard, if_true] at hm
      exact Option.noConfusion hm
    · simp only [hguard, if_true] at hm
      exact Option.noConfusion hm
    · exact (hshape q0 q1 rfl).elim
    · simp only [hguard, if_true] at hm
      exact Option.noConfusion hm
  -- 9: binary node, operator mismatch
  · intro expr subst pop pats eop a0 a1 hguard hnode b s1 hm k hk
    rw [ac_match.eq_def, hnode] at hm
    rw [Bool.not_eq_true] at hguard
    simp only [hguard, Bool.false_eq_true, if_false, Option.some.injEq,
      Prod.mk.injEq] at hm
    obtain ⟨-, rfl⟩ := hm
    exact Or.inl hk
  -- 10: AC node, operator matches
  · intro expr subst pop pats eop m hguard hnode ih b s1 hm k hk
    rw [ac_match.eq_def, hnode] at hm
    simp only [hguard, if_true] at hm
    rcases ih b s1 hm k hk with h | h
    · exact Or.inl h
    · right
      simp only [patNames_op]
      exact h
  -- 11: AC node, operator mismatch
  · intro expr subst pop pats eop m hguard hnode b s1 hm k hk
    rw [ac_match.eq_def, hnode] at hm
    rw [Bool.not_eq_true] at hguard
    simp only [hguard, Bool.false_eq_true, if_false, Option.some.injEq,
      Prod.mk.injEq] at hm
    obtain ⟨-, rfl⟩ := hm
    exact Or.inl hk
  -- 12: multiset pattern: panic
  · intro expr subst node hnode x b s1 hm k hk
    rw [ac_match.eq_def, hnode] at hm
    cases node <;> exact Option.noConfusion hm
  -- 13: catch-all: shape mismatch
  · intro expr pat subst node hnode hv hms hc hopop hopac b s1 hm k hk
    cases pat <;> cases node <;>
      first
      | exact (hv _ rfl).elim
      | exact (hms _ rfl).elim
      | exact (hc _ _ rfl rfl).elim
      | exact (hopop _ _ _ _ _ rfl rfl).elim
      | exact (hopac _ _ _ _ rfl rfl).elim
      | (rw [ac_match.eq_def, hnode] at hm
         simp only [Option.some.injEq, Prod.mk.injEq] at hm
         obtain ⟨-, rfl⟩ := hm
         exact Or.inl hk)
  -- 14: acLoop, empty list
  · intro remaining subst b s1 hm k hk
    rw [acLoop.eq_def] at hm
    simp only [Option.some.injEq, Prod.mk.injEq] at hm
    obtain ⟨-, rfl⟩ := hm
    exact Or.inl hk
  -- 15: multiset binder, name already bound: assert fails
  · intro remaining subst rest xs hcontains b s1 hm k hk
    rw [acLoop.eq_def] at hm
    simp only [hcontains, if_true] at hm
    exact Option.noConfusion hm
  -- 16: multiset binder, fresh name
  · intro remaining subst rest xs hcontains b s1 hm k hk
    rw [acLoop.eq_def] at hm
    rw [Bool.not_eq_true] at hcontains
    simp only [hcontains, Bool.false_eq_true, if_false, Option.some.injEq,
      Prod.mk.injEq] at hm
    obtain ⟨-, rfl⟩ := hm
    rcases mem_keys_insert hk with h | h
    · exact Or.inl h
    · right
      simp only [listNames_cons, patNames_multiset]
      simp [h]
  -- 17: candidate search panics
  · intro remaining subst rest p hpns htc ih b s1 hm k hk
    rw [acLoop.eq_def] at hm
    cases p
    case multiset x => exact (hpns x rfl).elim
    all_goals
      simp only [htc] at hm
      exact Option.noConfusion hm
  -- 18: no candidate succeeds
  · intro remaining subst rest p hpns htc ih b s1 hm k hk
    rw [acLoop.eq_def] at hm
    cases p
    case multiset x => exact (hpns x rfl).elim
    all_goals
      simp only [htc, Option.some.injEq, Prod.mk.injEq] at hm
      obtain ⟨-, rfl⟩ := hm
      exact Or.inl hk
  -- 19: candidate committed, loop continues
  · intro remaining subst rest p hpns e s1 htc ih3 ih2 b s2 hm k hk
    have step : acLoop arena rest (MSet.removeKey remaining e) s1 = some (b, s2) := by
      rw [acLoop.eq_def] at hm
      cases p
      case multiset x => exact (hpns x rfl).elim
      all_goals
        simp only [htc] at hm
        exact hm
    rcases ih2 b s2 step k hk with h | h
    · rcases ih3 e s1 htc k h with h2 | h2
      · exact Or.inl h2
      · right
        simp only [listNames_cons]
        exact List.mem_append.2 (Or.inl h2)
    · right
      simp only [listNames_cons]
      exact List.mem_append.2 (Or.inr h)
  -- 20: tryCands, no candidates left
  · intro pat subst e s1 hm k hk
    rw [tryCands.eq_def] at hm
    simp only [Option.some.injEq] at hm
    exact Option.noConfusion hm
  -- 21: trial panics
  · intro pat subst e es hmatch ih e1 s1 hm k hk
    rw [tryCands.eq_def] at hm
    simp only [hmatch] at hm
    exact Option.noConfusion hm
  -- 22: trial succeeds
  · intro pat subst e es s1 hmatch ih e1 s2 hm k hk
    rw [tryCands.eq_def] at hm
    simp only [hmatch, Option.some.injEq, Prod.mk.injEq] at hm
    obtain ⟨rfl, rfl⟩ := hm
    exact ih _ _ hmatch k hk
  -- 23: trial fails, keep searching
  · intro pat subst e es s0 hmatch ih ih3 e1 s1 hm k hk
    rw [tryCands.eq_def] at hm
    simp only [hmatch] at hm
    exact ih3 e1 s1 hm k hk



end ACMatch

namespace ACMatch

/-- Evaluation of the `Var` pattern arm for any in-range handle: the node shape
is irrelevant, only the current binding of the name matters. -/
theorem var_eval (arena : Arena) (expr : Id) (x : String) (s : Subst)
    (node : MathAC) (hnode : arena[expr]? = some node) :
    ac_match arena expr (.var x) s =
      (match Subst.get s x with
       | some bound => some (bound == SubstValue.atom expr, s)
       | none => some (true, Subst.insert s x (SubstValue.atom expr))) := by
  rw [ac_match.eq_def, hnode]

/-- Claim C1 counterexample: in `arenaDup` the operand multiset is `{0: 2}`.
Were one occurrence removed per committed sub-pattern, the pattern
`Op(Add, [Const(0), Const(0)])` would succeed (two occurrences are present);
the code instead deletes the whole key after the first commitment (multiplicity
drops from 2 straight to 0) and the match returns `false`. -/
theorem c1_counterexample :
    ac_match arenaDup 2 (.op .add [.const 0, .const 0]) [] = some (false, []) ∧
    MSet.count (multiset [0, 0]) 0 = 2 ∧
    MSet.count (MSet.removeKey (multiset [0, 0]) 0) 0 = 0 := by
  refine ⟨?_, by rfl, by rfl⟩
  simp [-Prod.mk_one_one, ac_match.eq_def, acLoop.eq_def, tryCands.eq_def,
    arenaDup, multiset, MSet.add, MSet.keys, MSet.removeKey, Subst.get,
    Subst.containsKey, Subst.insert]

/-- Claim C1 (amended): in the AC branch, when a candidate trial succeeds the
loop commits the trial substitution and continues with
`remaining.remove(&e)` applied to the working multiset, which deletes the
whole key: the multiplicity of the matched handle drops to 0, so no further
occurrence of it stays available to later sub-patterns. -/
theorem c1_remove_whole_key (arena : Arena) (pat : Pattern)
    (rest : List Pattern) (m : MSet) (s s1 : Subst) (e : Id)
    (hpat : ∀ xs, pat ≠ Pattern.multiset xs)
    (htc : tryCands arena (MSet.keys m) pat s = some (some (e, s1))) :
    acLoop arena (pat :: rest) m s = acLoop arena rest (MSet.removeKey m e) s1 ∧
    MSet.count (MSet.removeKey m e) e = 0 := by
  refine ⟨?_, count_removeKey_self m e⟩
  rw [acLoop.eq_def]
  cases pat
  case multiset x => exact (hpat x rfl).elim
  all_goals simp only [htc]

/-- Witness for `c1_remove_whole_key` at a concrete input. -/
theorem c1_remove_whole_key_witness :
    acLoop arenaDup [Pattern.const 0] (multiset [0, 0]) [] =
      acLoop arenaDup [] (MSet.removeKey (multiset [0, 0]) 0) [] ∧
    MSet.count (MSet.removeKey (multiset [0, 0]) 0) 0 = 0 :=
  c1_remove_whole_key arenaDup (.const 0) [] (multiset [0, 0]) [] [] 0
    (fun _ h => Pattern.noConfusion h)
    (by simp [-Prod.mk_one_one, tryCands.eq_def, ac_match.eq_def, arenaDup,
      multiset, MSet.add, MSet.keys, Subst.get])

/-- Claim C2 counterexample: matching `Op(Add, [Multiset("xs"), Var("x")])`
against `OpAC(Add, {0: 1})` from the empty substitution succeeds, yet `"x"`
occurs in the pattern and is left unbound, because the `Multiset` binder
returns before later sub-patterns are examined. -/
theorem c2_counterexample :
    ac_match arenaSing 1 (.op .add [.multiset "xs", .var "x"]) [] =
      some (true, [("xs", SubstValue.multiset (multiset [0]))]) ∧
    "x" ∈ patNames (.op .add [.multiset "xs", .var "x"]) ∧
    Subst.get [("xs", SubstValue.multiset (multiset [0]))] "x" = none := by
  refine ⟨?_, ?_, by simp [Subst.get]⟩
  · simp [-Prod.mk_one_one, ac_match.eq_def, acLoop.eq_def, tryCands.eq_def,
      arenaSing, multiset, MSet.add, MSet.keys, MSet.removeKey, Subst.get,
      Subst.containsKey, Subst.insert]
  · simp [patNames_op, listNames_cons, listNames_nil, patNames_var,
      patNames_multiset]

/-- Claim C2 (amended): if `ac_match` starting from the empty substitution
returns at all, every name bound in the final substitution occurs in the
pattern (as a `Var` or `Multiset` name); the converse inclusion fails, as names
occurring after a `Multiset` binder may be left unbound. -/
theorem c2_success_binds_only_pattern_names (arena : Arena) (expr : Id)
    (pat : Pattern) (b : Bool) (s1 : Subst)
    (h : ac_match arena expr pat [] = some (b, s1)) :
    ∀ k ∈ Subst.keys s1, k ∈ patNames pat := by
  intro k hk
  rcases (keys_mono_all arena).1 expr pat [] b s1 h k hk with h2 | h2
  · simp [Subst.keys] at h2
  · exact h2

/-- Witness for `c2_success_binds_only_pattern_names` at a concrete input. -/
theorem c2_success_binds_only_pattern_names_witness :
    "xs" ∈ patNames (Pattern.op .add [.multiset "xs", .var "x"]) :=
  c2_success_binds_only_pattern_names arenaSing 1
    (.op .add [.multiset "xs", .var "x"]) true
    [("xs", SubstValue.multiset (multiset [0]))]
    (by simp [-Prod.mk_one_one, ac_match.eq_def, acLoop.eq_def, tryCands.eq_def,
      arenaSing, multiset, MSet.add, MSet.keys, MSet.removeKey, Subst.get,
      Subst.containsKey, Subst.insert])
    "xs" (by simp [Subst.keys])

/-- Claim C3 counterexample: with `"xs"` already bound to exactly the value the
`Multiset("xs")` sub-pattern is about to bind (the full remaining multiset
`{0: 1}`), the matcher does not succeed by an equality check: the
`assert!(!subst.contains_key(xs))` fails, modelled as `none`. -/
theorem c3_counterexample :
    Subst.get [("xs", SubstValue.multiset (multiset [0]))] "xs" =
      some (SubstValue.multiset (multiset [0])) ∧
    ac_match arenaSing 1 (.op .add [.multiset "xs"])
      [("xs", SubstValue.multiset (multiset [0]))] = none := by
  refine ⟨by simp [Subst.get], ?_⟩
  simp [-Prod.mk_one_one, ac_match.eq_def, acLoop.eq_def, tryCands.eq_def,
    arenaSing, multiset, MSet.add, MSet.keys, MSet.removeKey, Subst.get,
    Subst.containsKey, Subst.insert]

/-- Claim C3 (amended): rebinding through a `Var` pattern checks equality with
the existing binding, succeeding exactly when it equals `Atom(expr)`; but
rebinding through a `Multiset` pattern never checks equality: whenever the name
is already present the AC branch aborts fatally. -/
theorem c3_rebinding_behavior :
    (∀ (arena : Arena) (expr : Id) (x : String) (s : Subst) (bound : SubstValue),
        expr < arena.length → Subst.get s x = some bound →
        ac_match arena expr (.var x) s =
          some (bound == SubstValue.atom expr, s)) ∧
    (∀ (arena : Arena) (xs : String) (rest : List Pattern) (m : MSet) (s : Subst),
        Subst.containsKey s xs = true →
        acLoop arena (.multiset xs :: rest) m s = none) := by
  constructor
  · intro arena expr x s bound hlen hget
    rw [var_eval arena expr x s arena[expr] (List.getElem?_eq_getElem hlen), hget]
  · intro arena xs rest m s hc
    rw [acLoop.eq_def]
    simp only [hc, if_true]

/-- Witness for `c3_rebinding_behavior` at concrete inputs. -/
theorem c3_rebinding_behavior_witness :
    ac_match arenaSing 0 (.var "x") [("x", SubstValue.atom 0)] =
      some (true, [("x", SubstValue.atom 0)]) ∧
    acLoop arenaSing [.multiset "xs"] (multiset [0])
      [("xs", SubstValue.multiset (multiset [0]))] = none := by
  constructor
  · have h := c3_rebinding_behavior.1 arenaSing 0 "x" [("x", SubstValue.atom 0)]
      (SubstValue.atom 0) (by simp [arenaSing]) (by simp [Subst.get])
    simpa using h
  · exact c3_rebinding_behavior.2 arenaSing "xs" [] (multiset [0])
      [("xs", SubstValue.multiset (multiset [0]))] (by simp [Subst.containsKey])

/-- Claim C4: matching `Op(Add, [Var("x"), Const(5)])` against the binary node
`Op(Add, [0, 1])` of `arenaBin` from the empty substitution returns `false`,
yet the binding `x := Atom(0)` made by the first positional sub-match remains
committed in the caller-visible substitution: the binary branch does not roll
back. -/
theorem c4_binary_branch_no_rollback :
    ac_match arenaBin 2 (.op .add [.var "x", .const 5]) [] =
      some (false, [("x", SubstValue.atom 0)]) ∧
    Subst.get [("x", SubstValue.atom 0)] "x" = some (SubstValue.atom 0) := by
  refine ⟨?_, by simp [Subst.get]⟩
  simp [-Prod.mk_one_one, ac_match.eq_def, arenaBin, Subst.get, Subst.insert]

/-- Claim C5: if no candidate in the remaining multiset succeeds for a
non-`Multiset` sub-pattern, the AC loop immediately returns `false` without
revisiting earlier commitments; and the assignment is greedy: over
`OpAC(Add, {0, 1})` of `arenaTwo` (nodes `Const(0)` and `Const(5)`), the
pattern `Op(Add, [Var("x"), Const(0)])` fails even though a consistent
assignment exists — the reversed pattern `Op(Add, [Const(0), Var("x")])`
succeeds, and each sub-pattern individually matches a distinct element. -/
theorem c5_greedy_single_pass :
    (∀ (arena : Arena) (pat : Pattern) (rest : List Pattern) (m : MSet)
        (s : Subst),
        (∀ xs, pat ≠ Pattern.multiset xs) →
        tryCands arena (MSet.keys m) pat s = some none →
        acLoop arena (pat :: rest) m s = some (false, s)) ∧
    ac_match arenaTwo 2 (.op .add [.var "x", .const 0]) [] =
      some (false, [("x", SubstValue.atom 0)]) ∧
    ac_match arenaTwo 2 (.op .add [.const 0, .var "x"]) [] =
      some (true, [("x", SubstValue.atom 1)]) ∧
    ac_match arenaTwo 0 (.const 0) [] = some (true, []) ∧
    ac_match arenaTwo 1 (.var "x") [] = some (true, [("x", SubstValue.atom 1)]) := by
  refine ⟨?_, ?_, ?_, ?_, ?_⟩
  · intro arena pat rest m s hpat htc
    rw [acLoop.eq_def]
    cases pat
    case multiset x => exact (hpat x rfl).elim
    all_goals simp only [htc]
  all_goals
    simp [-Prod.mk_one_one, ac_match.eq_def, acLoop.eq_def, tryCands.eq_def,
      arenaTwo, multiset, MSet.add, MSet.keys, MSet.removeKey, Subst.get,
      Subst.containsKey, Subst.insert]

/-- Witness for the general conjunct of `c5_greedy_single_pass` at a concrete
input. -/
theorem c5_greedy_single_pass_witness :
    acLoop arenaTwo [Pattern.const 7] (multiset [1]) [] = some (false, []) :=
  c5_greedy_single_pass.1 arenaTwo (.const 7) [] (multiset [1]) []
    (fun _ h => Pattern.noConfusion h)
    (by simp [-Prod.mk_one_one, tryCands.eq_def, ac_match.eq_def, arenaTwo,
      multiset, MSet.add, MSet.keys, Subst.get])

/-- Claim C6 counterexample: matching `Op(Add, [Var("xs"), Multiset("xs")])`
against `OpAC(Add, {0, 1})` from the empty substitution reaches the
`Multiset("xs")` element with `"xs"` already bound; instead of binding the
remainder and returning `true`, the matcher aborts fatally (`none`). -/
theorem c6_counterexample :
    ac_match arenaTwo 2 (.op .add [.var "xs", .multiset "xs"]) [] = none := by
  simp [-Prod.mk_one_one, ac_match.eq_def, acLoop.eq_def, tryCands.eq_def,
    arenaTwo, multiset, MSet.add, MSet.keys, MSet.removeKey, Subst.get,
    Subst.containsKey, Subst.insert]

/-- Claim C6 (amended): when the AC loop reaches a `Multiset(name)` element it
never looks further: if `name` is already bound the assert fails fatally,
otherwise `name` is bound to the current remaining working multiset and the
loop returns `true` immediately; either way the result is independent of all
later sub-patterns. -/
theorem c6_multiset_binder_terminates (arena : Arena) (xs : String)
    (rest rest2 : List Pattern) (m : MSet) (s : Subst) :
    acLoop arena (.multiset xs :: rest) m s =
      (if Subst.containsKey s xs then none
       else some (true, Subst.insert s xs (SubstValue.multiset m))) ∧
    acLoop arena (.multiset xs :: rest) m s =
      acLoop arena (.multiset xs :: rest2) m s := by
  constructor
  · rw [acLoop.eq_def]
  · rw [acLoop.eq_def]
    rw [acLoop.eq_def]

/-- Claim C7: for a valid handle (whatever the node shape), matching `Var(x)`
when `x` is bound returns the boolean equality of the existing binding with
`Atom(expr)` — handle identity, not structural equality — leaving the
substitution unchanged; when `x` is unbound it inserts `x := Atom(expr)` and
returns `true` unconditionally. -/
theorem c7_var_pattern_semantics (arena : Arena) (expr : Id) (x : String)
    (s : Subst) (hlen : expr < arena.length) :
    (∀ bound, Subst.get s x = some bound →
        ac_match arena expr (.var x) s =
          some (bound == SubstValue.atom expr, s)) ∧
    (Subst.get s x = none →
        ac_match arena expr (.var x) s =
          some (true, Subst.insert s x (SubstValue.atom expr))) := by
  constructor
  · intro bound hget
    rw [var_eval arena expr x s arena[expr] (List.getElem?_eq_getElem hlen), hget]
  · intro hget
    rw [var_eval arena expr x s arena[expr] (List.getElem?_eq_getElem hlen), hget]

/-- Witness for `c7_var_pattern_semantics` at a concrete input. -/
theorem c7_var_pattern_semantics_witness :
    ac_match arenaSing 0 (.var "x") [] =
      some (true, [("x", SubstValue.atom 0)]) := by
  have h := (c7_var_pattern_semantics arenaSing 0 "x" [] (by simp [arenaSing])).2
    (by simp [Subst.get])
  simpa [Subst.insert] using h

/-- Claim C8: a top-level `Multiset` pattern always hits the explicit `panic!`
(or the index panic when the handle is out of range): the call is fatal for
every arena, handle and substitution, and in particular never returns the
boolean `false`. -/
theorem c8_toplevel_multiset_pattern_is_fatal (arena : Arena) (expr : Id)
    (xs : String) (s : Subst) :
    ac_match arena expr (.multiset xs) s = none := by
  rw [ac_match.eq_def]
  cases h : arena[expr]? with
  | none => rfl
  | some node => cases node <;> rfl

/-- Claim C9: in the arena of the `test_match` test (where the `OpAC(Mul, ...)`
node receives handle 5), matching `Op(Mul, [Const(0), Multiset("xs")])` from
the empty substitution succeeds and binds exactly `"xs"` to the multiset
containing handles 0, 1 and 3 once each — the three elements left after one
occurrence of the `Const(0)` node (handle 2) is removed. -/
theorem c9_mul_zero_scenario :
    ac_match arenaT 5 (.op .mul [.const 0, .multiset "xs"]) [] =
      some (true, [("xs", SubstValue.multiset [(0, 1), (3, 1), (1, 1)])]) ∧
    MSet.count [(0, 1), (3, 1), (1, 1)] 0 = 1 ∧
    MSet.count [(0, 1), (3, 1), (1, 1)] 1 = 1 ∧
    MSet.count [(0, 1), (3, 1), (1, 1)] 3 = 1 ∧
    MSet.count [(0, 1), (3, 1), (1, 1)] 2 = 0 := by
  refine ⟨?_, by rfl, by rfl, by rfl, by rfl⟩
  have hm : multiset [0, 3, 2, 1] = [(0, 1), (3, 1), (2, 1), (1, 1)] := by
    simp [-Prod.mk_one_one, multiset, MSet.add]
  have h1 : tryCands arenaT [0, 3, 2, 1] (.const 0) [] = some (some (2, [])) := by
    simp [-Prod.mk_one_one, tryCands.eq_def, ac_match.eq_def, arenaT, hm,
      Subst.get]
  simp only [arenaT, hm] at h1
  rw [ac_match.eq_def]
  simp only [arenaT, hm]
  simp [-Prod.mk_one_one, acLoop.eq_def, MSet.keys, MSet.removeKey,
    Subst.containsKey, Subst.insert, h1]

/-- Claim C10: the speculative-copy rollback protects single candidate trials
only.  Matching `Op(Add, [Var("x"), Const(5)])` against `OpAC(Add, {0: 1})` of
`arenaSing` from the empty substitution commits `x := Atom(0)` for the first
sub-pattern, then finds no candidate for `Const(5)` and returns `false` with
the committed binding still visible to the caller. -/
theorem c10_trial_rollback_is_per_candidate :
    ac_match arenaSing 1 (.op .add [.var "x", .const 5]) [] =
      some (false, [("x", SubstValue.atom 0)]) ∧
    Subst.get [("x", SubstValue.atom 0)] "x" = some (SubstValue.atom 0) := by
  refine ⟨?_, by simp [Subst.get]⟩
  simp [-Prod.mk_one_one, ac_match.eq_def, acLoop.eq_def, tryCands.eq_def,
    arenaSing, multiset, MSet.add, MSet.keys, MSet.removeKey, Subst.get,
    Subst.containsKey, Subst.insert]

end ACMatch
